import Mathlib

set_option maxHeartbeats 1000000

/-! Shallow embedding of the FBDI-Automation services:
  * the control-file field parser
    (src/fbdi/control_file/services/control_file.py, `_parse_control_file_content`),
  * the metadata field merge of the object catalog's additional fields
    (src/fbdi/control_file/api/routes.py, `get_metadata`),
  * the mapping-driven transform
    (src/fbdi/generator/services/transform_service.py, HEAD side of the
    recorded merge conflict, which is the side the database module
    src/fbdi/db/db.py `execute_sql_query` belongs to).
Text is modelled as `List Char`; pandas DataFrames as ordered association
lists of named columns together with the length of their row index. -/

/-- Python `str.find(pat)` on character lists: index of the first occurrence
of `pat`, `none` where Python returns `-1`. -/
def findSub (pat : List Char) : List Char → Option Nat
  | [] => if pat = [] then some 0 else none
  | c :: rest =>
    if pat.isPrefixOf (c :: rest) then some 0
    else (findSub pat rest).map (· + 1)

/-- Python `str.find(ch, start)`: first index `≥ start` holding `ch`. -/
def findCharFrom (ch : Char) (start : Nat) (l : List Char) : Option Nat :=
  (findSub [ch] (l.drop start)).map (· + start)

/-- The bracket scan of `_parse_control_file_content` (control_file.py lines
74-84): walk the text after the opening parenthesis with a depth counter,
`(` increments, `)` decrements, and the scan stops at the first `)` that
brings the depth to 0.  Returns the offset of that `)` relative to the scan
start (`none` models `close_paren_index == -1`). -/
def scanClose (depth : Nat) : List Char → Option Nat
  | [] => none
  | c :: rest =>
    if c = '(' then (scanClose (depth + 1) rest).map (· + 1)
    else if c = ')' then
      if depth = 1 then some 0
      else (scanClose (depth - 1) rest).map (· + 1)
    else (scanClose depth rest).map (· + 1)

/-- Parenthesis balance of a text: occurrences of `(` minus occurrences of
`)` (used to state what the bracket scan computes). -/
def bal : List Char → Int
  | [] => 0
  | c :: rest => (if c = '(' then 1 else if c = ')' then -1 else 0) + bal rest

/-- The three structural failure modes of the parser (the three distinct
HTTP 422 details raised by `_parse_control_file_content`). -/
inductive GrammarError
  | MissingAnchor
  | MissingOpenParen
  | UnbalancedParens
deriving DecidableEq

/-- The anchor literal `INTO TABLE`. -/
def anchorChars : List Char := "INTO TABLE".data

/-- Lines 64-90 of control_file.py: locate `INTO TABLE`, the first `(`
after it, the depth-balanced closing `)`, and extract the text strictly
between the two parentheses. -/
def fieldSectionE (content : List Char) : Except GrammarError (List Char) :=
  match findSub anchorChars content with
  | none => .error .MissingAnchor
  | some it =>
    match findCharFrom '(' it content with
    | none => .error .MissingOpenParen
    | some op =>
      match scanClose 1 (content.drop (op + 1)) with
      | none => .error .UnbalancedParens
      | some k => .ok ((content.drop (op + 1)).take k)

/-- Python `str.split('\n')`: split at every newline, keeping empty parts. -/
def splitOnNl : List Char → List (List Char)
  | [] => [[]]
  | c :: rest =>
    if c = '\n' then [] :: splitOnNl rest
    else
      match splitOnNl rest with
      | [] => [[c]]
      | h :: t => (c :: h) :: t

/-- Whitespace characters removed by Python `str.strip()`. -/
def isSpaceChar (c : Char) : Bool :=
  c = ' ' || c = '\t' || c = '\n' || c = '\r' || c = '\x0b' || c = '\x0c'

/-- Python `str.strip()` on character lists. -/
def stripChars (l : List Char) : List Char :=
  ((l.dropWhile isSpaceChar).reverse.dropWhile isSpaceChar).reverse

/-- Python `str.upper()` on character lists (ASCII case fold). -/
def upperChars (l : List Char) : List Char := l.map Char.toUpper

/-- Substring containment, Python `find(...) != -1`. -/
def containsSub (pat l : List Char) : Bool := (findSub pat l).isSome

/-- Line 99 of control_file.py: the skip test applied to the uppercased
line — it contains `CONSTANT`, `EXPRESSION` or `FILLER`, or strips to
exactly `END`. -/
def skipLine (l : List Char) : Bool :=
  containsSub "CONSTANT".data l || containsSub "EXPRESSION".data l ||
    containsSub "FILLER".data l || stripChars l = "END".data

/-- Characters of the regex class `[A-Z0-9_]`. -/
def isFieldChar (c : Char) : Bool :=
  ('A' ≤ c && c ≤ 'Z') || ('0' ≤ c && c ≤ '9') || c = '_'

/-- The regex match `re.match(r'^,?([A-Z0-9_]+)', line)` of line 102:
an optional leading comma, then the captured maximal run of `[A-Z0-9_]`.
(When a leading comma is followed by no field character the regex also
fails after backtracking, since `,` itself is not in the class.) -/
def matchFieldName (l : List Char) : Option (List Char) :=
  let l' := match l with
    | ',' :: rest => rest
    | _ => l
  let t := l'.takeWhile isFieldChar
  if t = [] then none else some t

/-- Lines 93-104 of control_file.py: split the field section into lines,
uppercase each line, drop skip-lines, and collect the captured leading
field-name token of each remaining line that matches. -/
def extractFieldNames (sec : List Char) : List (List Char) :=
  (splitOnNl sec).foldl
    (fun acc line =>
      let lu := upperChars line
      if skipLine lu then acc
      else
        match matchFieldName (stripChars lu) with
        | some name => acc ++ [name]
        | none => acc)
    []

/-- The sentinel appended at line 106 of control_file.py. -/
def endSentinel : List Char := "END".data

/-- `_parse_control_file_content` (control_file.py lines 54-108): extract
the field section, collect field names, and append the `END` sentinel
exactly when at least one name was captured. -/
def parse_control_file_content (content : List Char) :
    Except GrammarError (List (List Char)) :=
  match fieldSectionE content with
  | .error e => .error e
  | .ok sec =>
    let names := extractFieldNames sec
    if names.length > 0 then .ok (names ++ [endSentinel]) else .ok names

/-- routes.py `get_metadata` lines 45-47: append each additional catalog
field to the parsed field list unless it is already present (the membership
test runs against the evolving list). -/
def mergeAdditionalFields (fields additional : List (List Char)) :
    List (List Char) :=
  additional.foldl (fun fs f => if f ∈ fs then fs else fs ++ [f]) fields

/-- A scalar cell of a DataFrame.  `vnone` models NaN/None.  `vdict` is a
raw structured-default dict as a hypothetical cell value: pandas never
stores one (a dict takes the Series-alignment path), and the constructor
exists to state — and refute — the spec's raw-pass-through reading. -/
inductive Val
  | vstr (s : String)
  | vint (n : Int)
  | vnone
  | vdict (ty value : String)
deriving DecidableEq

/-- The `Default Value` of a column rule: absent (NaN), a plain scalar, or
a structured `{type, value}` object. -/
inductive DefaultVal
  | absent
  | scalar (v : Val)
  | dict (ty value : String)
deriving DecidableEq

/-- One row of a mapping sheet: `Source Column` (none models an absent key
or NaN), `Control Column`, and `Default Value`. -/
structure ColumnRule where
  source_column : Option String
  target_column : String
  default : DefaultVal
deriving DecidableEq

/-- The source DataFrame produced by `pd.read_csv`: named columns plus the
length of the row index.  Well-formedness (every column has `nrows`
entries) is tracked by `SourceWF`. -/
structure SourceDF where
  cols : List (String × List Val)
  nrows : Nat
deriving DecidableEq

def SourceWF (src : SourceDF) : Prop :=
  ∀ p ∈ src.cols, p.2.length = src.nrows

/-- The row index of the output frame.  Starting from `pd.DataFrame()` the
index is an empty RangeIndex; it can only ever become a longer RangeIndex
(adopted from a source-column Series) or the two string labels
`['type', 'value']` (adopted from a raw structured-default dict, whose
`Series(dict)` carries the dict's keys as its index) — those are the only
index-adopting assignments the rule loop performs. -/
inductive FrameIndex
  | range (n : Nat)
  | dictKeys
deriving DecidableEq

/-- `len(index)`: a RangeIndex has its length, the adopted dict-key index
`['type', 'value']` has length 2. -/
def FrameIndex.count : FrameIndex → Nat
  | .range n => n
  | .dictKeys => 2

/-- The output DataFrame under construction: its row index and ordered
named columns. -/
structure ODF where
  idx : FrameIndex
  cols : List (String × List Val)
deriving DecidableEq

/-- `len(df.index)`. -/
def ODF.nrows (df : ODF) : Nat := df.idx.count

/-- Look up a column by name in an ordered column list. -/
def lookupCol (name : String) : List (String × List Val) → Option (List Val)
  | [] => none
  | (m, v) :: rest => if m = name then some v else lookupCol name rest

/-- pandas `df[name] = value`: replace the column in place when the name
exists, else append it at the end. -/
def updateCols (cs : List (String × List Val)) (name : String)
    (v : List Val) : List (String × List Val) :=
  match cs with
  | [] => [(name, v)]
  | (m, w) :: rest =>
    if m = name then (name, v) :: rest else (m, w) :: updateCols rest name v

/-- pandas reindexing of existing columns when an empty-index frame adopts
the index of an assigned series: every existing column is refilled with
NaN at the new length. -/
def reindexNone (m : Nat) (cs : List (String × List Val)) :
    List (String × List Val) :=
  cs.map (fun p => (p.1, List.replicate m Val.vnone))

/-- pandas alignment of a RangeIndex series of length `s.length` to a
RangeIndex of length `n`: keep the first `n` values, pad missing positions
with NaN. -/
def alignTo (n : Nat) (s : List Val) : List Val :=
  s.take n ++ List.replicate (n - s.length) Val.vnone

/-- pandas `_reindex_for_setitem` of a source-column Series (integer
RangeIndex labels) against the frame's index: positional alignment on a
RangeIndex; all NaN against the string labels of an adopted dict-key
index. -/
def alignSeries (idx : FrameIndex) (s : List Val) : List Val :=
  match idx with
  | .range m => alignTo m s
  | .dictKeys => [Val.vnone, Val.vnone]

/-- pandas `_reindex_for_setitem` of `Series({'type': ty, 'value': v})`
(string labels) against the frame's index: no label matches an integer
RangeIndex (all NaN); both labels match an adopted dict-key index. -/
def alignDict (idx : FrameIndex) (ty v : String) : List Val :=
  match idx with
  | .range m => List.replicate m Val.vnone
  | .dictKeys => [Val.vstr ty, Val.vstr v]

/-- `output_df[target_col] = <scalar>`: broadcast the scalar over the
frame's current index. -/
def assignScalar (df : ODF) (name : String) (v : Val) : ODF :=
  { idx := df.idx, cols := updateCols df.cols name (List.replicate df.nrows v) }

/-- `output_df[target_col] = source_df[source_col]`: when the frame still
has an empty index and the series is non-empty, `_ensure_valid_index`
makes the frame adopt the series' RangeIndex (reindexing prior columns to
NaN); otherwise the series is aligned to the existing index. -/
def assignSeries (df : ODF) (name : String) (s : List Val) : ODF :=
  if df.nrows = 0 ∧ s.length ≠ 0 then
    { idx := .range s.length,
      cols := updateCols (reindexNone s.length df.cols) name s }
  else
    { idx := df.idx, cols := updateCols df.cols name (alignSeries df.idx s) }

/-- `output_df[target_col] = default_value` with `default_value` a raw
dict (the unknown-tag branch, transform_service.py line 255): pandas'
`_sanitize_column` converts the dict to `Series({'type': ty, 'value': v})`
and reindexes it to the frame's index; on a still-empty frame
`_ensure_valid_index` first makes the frame adopt the dict's two keys as
its index (reindexing prior columns to NaN). -/
def assignDict (df : ODF) (name : String) (ty v : String) : ODF :=
  if df.nrows = 0 then
    { idx := .dictKeys,
      cols := updateCols (reindexNone 2 df.cols) name
        [Val.vstr ty, Val.vstr v] }
  else
    { idx := df.idx, cols := updateCols df.cols name (alignDict df.idx ty v) }

/-- db.py `execute_sql_query` (lines 215-253): run the query and return its
DataFrame rows; any exception is caught and an empty DataFrame returned.
The database itself is the oracle argument. -/
def execute_sql_query (res : Except String (List (List Val))) :
    List (List Val) :=
  match res with
  | .ok rows => rows
  | .error _ => []

/-- The injected wall clock (`datetime.now()` readings). -/
structure DateTimeModel where
  year : Nat
  month : Nat
  day : Nat
  hour : Nat
  minute : Nat
  second : Nat
deriving DecidableEq

/-- Decimal digits of a natural number, as `strftime('%Y')` renders the
year. -/
def natToDigits (n : Nat) : List Char := Nat.toDigits 10 n

/-- Two-digit zero padding, as `strftime` renders `%m %d %H %M %S`. -/
def pad2 (n : Nat) : List Char :=
  if n < 10 then '0' :: natToDigits n else natToDigits n

/-- Fuelled Python `str.replace(pat, rep)`: replace every non-overlapping
occurrence, scanning left to right.  Fuel is the remaining text length, so
the definition is structural and kernel-computable; the patterns used by
the code are never empty. -/
def replaceAllF : Nat → List Char → List Char → List Char → List Char
  | 0, s, _, _ => s
  | _ + 1, [], _, _ => []
  | fuel + 1, c :: rest, pat, rep =>
    if pat ≠ [] ∧ pat.isPrefixOf (c :: rest) then
      rep ++ replaceAllF fuel (rest.drop (pat.length - 1)) pat rep
    else c :: replaceAllF fuel rest pat rep

def replaceAll (s pat rep : List Char) : List Char :=
  replaceAllF s.length s pat rep

/-- The token table of `generate_sequence` (transform_service.py lines
357-365), in its Python dict insertion order. -/
def format_map (now : DateTimeModel) : List (List Char × List Char) :=
  [("YYYY".data, natToDigits now.year), ("MM".data, pad2 now.month),
   ("DD".data, pad2 now.day), ("HH".data, pad2 now.hour),
   ("MI".data, pad2 now.minute), ("SS".data, pad2 now.second)]

/-- `generate_sequence` (transform_service.py lines 338-372): substitute
each clock token of the format pattern in turn via `str.replace`. -/
def generate_sequence (now : DateTimeModel) (format_pattern : List Char) :
    List Char :=
  (format_map now).foldl (fun r tv => replaceAll r tv.1 tv.2) format_pattern

/-- `datetime.now().strftime('%Y%m%d%H%M%S')`, the legacy bare-`SEQUENCE`
timestamp of line 258. -/
def legacyTimestamp (now : DateTimeModel) : String :=
  String.mk (natToDigits now.year ++ pad2 now.month ++ pad2 now.day ++
    pad2 now.hour ++ pad2 now.minute ++ pad2 now.second)

/-- Python `str.lower()` (ASCII). -/
def strToLower (s : String) : String := String.mk (s.data.map Char.toLower)

/-- Python `str.upper()` (ASCII). -/
def strToUpper (s : String) : String := String.mk (s.data.map Char.toUpper)

/-- The scalar of a `sql` default (transform_service.py lines 233-235,
HEAD side): run the query through db.py and take the first cell
(`iloc[0, 0]`) of the result frame, None when it is empty. -/
def sqlScalar (orc : String → Except String (List (List Val)))
    (v : String) : Val :=
  match execute_sql_query (orc v) with
  | [] => Val.vnone
  | row :: _ => row.headD Val.vnone

/-- The scalar of a `sequence` default (lines 236-239): substitute the
clock pattern, an empty pattern falling back to `YYYYMMDDHHMISS`. -/
def seqScalar (clk : DateTimeModel) (v : String) : Val :=
  Val.vstr (String.mk (generate_sequence clk
    (String.data (if v = "" then "YYYYMMDDHHMISS" else v))))

/-- The default-value branch of the rule loop (transform_service.py lines
225-264, HEAD side), mirroring its if/elif chain of column assignments:
`sql`, `sequence` and `constant` tags broadcast their resolved scalar; any
other tag executes `output_df[target_col] = default_value` with the raw
dict, which in pandas is the dict-like Series-alignment assignment
(`assignDict`), not a scalar broadcast; a bare `SEQUENCE` string uses the
legacy timestamp; any other plain scalar is broadcast as-is; an absent
default broadcasts None. -/
def applyDefault (orc : String → Except String (List (List Val)))
    (clk : DateTimeModel) (df : ODF) (t : String) : DefaultVal → ODF
  | .absent => assignScalar df t Val.vnone
  | .scalar (Val.vstr s) =>
    if strToUpper s = "SEQUENCE" then
      assignScalar df t (Val.vstr (legacyTimestamp clk))
    else assignScalar df t (Val.vstr s)
  | .scalar v => assignScalar df t v
  | .dict ty v =>
    if strToLower ty = "sql" then assignScalar df t (sqlScalar orc v)
    else if strToLower ty = "sequence" then assignScalar df t (seqScalar clk v)
    else if strToLower ty = "constant" then assignScalar df t (Val.vstr v)
    else assignDict df t ty v

/-- Whether a default keeps to the scalar-broadcast branches (everything
except a structured default with an unrecognized tag, which takes the
dict-like assignment path). -/
def recognizedDefault : DefaultVal → Bool
  | .dict ty _ =>
    strToLower ty = "sql" || strToLower ty = "sequence" ||
      strToLower ty = "constant"
  | _ => true

/-- The source column a rule actually resolves from: its `Source Column`
when that is declared and present in the source frame. -/
def sourceLookup (src : SourceDF) (r : ColumnRule) : Option (List Val) :=
  match r.source_column with
  | some sc => lookupCol sc src.cols
  | none => none

/-- One iteration of the rule loop (transform_service.py lines 218-267):
copy the source column when usable, otherwise take the default branch. -/
def applyRule (src : SourceDF) (orc : String → Except String (List (List Val)))
    (clk : DateTimeModel) (df : ODF) (r : ColumnRule) : ODF :=
  match sourceLookup src r with
  | some s => assignSeries df r.target_column s
  | none => applyDefault orc clk df r.target_column r.default

/-- The column values a default-branch assignment stores at frame index
`idx` (mirrors `applyDefault` branch by branch). -/
def defaultColumn (orc : String → Except String (List (List Val)))
    (clk : DateTimeModel) (idx : FrameIndex) : DefaultVal → List Val
  | .absent => List.replicate idx.count Val.vnone
  | .scalar (Val.vstr s) =>
    if strToUpper s = "SEQUENCE" then
      List.replicate idx.count (Val.vstr (legacyTimestamp clk))
    else List.replicate idx.count (Val.vstr s)
  | .scalar v => List.replicate idx.count v
  | .dict ty v =>
    if strToLower ty = "sql" then List.replicate idx.count (sqlScalar orc v)
    else if strToLower ty = "sequence" then
      List.replicate idx.count (seqScalar clk v)
    else if strToLower ty = "constant" then
      List.replicate idx.count (Val.vstr v)
    else if idx.count = 0 then [Val.vstr ty, Val.vstr v]
    else alignDict idx ty v

/-- The column a rule writes, as a function of the frame index it is
applied at (mirrors `assignSeries`/`applyDefault`). -/
def resolvedColumn (src : SourceDF)
    (orc : String → Except String (List (List Val))) (clk : DateTimeModel)
    (idx : FrameIndex) (r : ColumnRule) : List Val :=
  match sourceLookup src r with
  | some s =>
    if idx.count = 0 ∧ s.length ≠ 0 then s else alignSeries idx s
  | none => defaultColumn orc clk idx r.default

/-- The rule loop of one mapping sheet, from an arbitrary starting frame. -/
def process_sheet_from (src : SourceDF)
    (orc : String → Except String (List (List Val))) (clk : DateTimeModel)
    (df : ODF) (rules : List ColumnRule) : ODF :=
  rules.foldl (applyRule src orc clk) df

/-- One mapping sheet processed from the fresh `pd.DataFrame()` of line
215. -/
def process_sheet (src : SourceDF)
    (orc : String → Except String (List (List Val))) (clk : DateTimeModel)
    (rules : List ColumnRule) : ODF :=
  process_sheet_from src orc clk { idx := .range 0, cols := [] } rules

/-- The required-columns check of lines 210-212: the sheet DataFrame built
from the rule list must contain both `Source Column` and `Control Column`
among its columns.  `Control Column` is present for every rule of this
model, so the check reduces to some rule declaring a `Source Column` key
(a key absent from every rule never appears as a DataFrame column). -/
def sheetColumnsOk (rules : List ColumnRule) : Bool :=
  rules.any (fun r => r.source_column.isSome)

/-- `process_mapping_and_generate_csvs` (transform_service.py lines
150-292, HEAD side) at the table level: process the sheets in declaration
order, skipping those missing the required mapping columns, and emit one
named output table per remaining sheet. -/
def process_mapping_and_generate_csvs (src : SourceDF)
    (orc : String → Except String (List (List Val))) (clk : DateTimeModel) :
    List (String × List ColumnRule) → List (String × ODF)
  | [] => []
  | (name, rules) :: rest =>
    if sheetColumnsOk rules then
      (name, process_sheet src orc clk rules) ::
        process_mapping_and_generate_csvs src orc clk rest
    else process_mapping_and_generate_csvs src orc clk rest

/-! Helper lemmas. -/

theorem fieldSectionE_missingAnchor {content : List Char}
    (h : findSub anchorChars content = none) :
    fieldSectionE content = .error .MissingAnchor := by
  unfold fieldSectionE
  rw [h]

theorem fieldSectionE_missingOpen {content : List Char} {it : Nat}
    (h1 : findSub anchorChars content = some it)
    (h2 : findCharFrom '(' it content = none) :
    fieldSectionE content = .error .MissingOpenParen := by
  simp [fieldSectionE, h1, h2]

theorem fieldSectionE_unbalanced {content : List Char} {it op : Nat}
    (h1 : findSub anchorChars content = some it)
    (h2 : findCharFrom '(' it content = some op)
    (h3 : scanClose 1 (content.drop (op + 1)) = none) :
    fieldSectionE content = .error .UnbalancedParens := by
  simp [fieldSectionE, h1, h2, h3]

theorem fieldSectionE_ok {content : List Char} {it op k : Nat}
    (h1 : findSub anchorChars content = some it)
    (h2 : findCharFrom '(' it content = some op)
    (h3 : scanClose 1 (content.drop (op + 1)) = some k) :
    fieldSectionE content = .ok ((content.drop (op + 1)).take k) := by
  simp [fieldSectionE, h1, h2, h3]

theorem parse_error_iff (content : List Char) (e : GrammarError) :
    parse_control_file_content content = .error e ↔
      fieldSectionE content = .error e := by
  rcases h : fieldSectionE content with e' | sec
  · simp [parse_control_file_content, h]
  · simp only [parse_control_file_content, h]
    constructor
    · intro hc
      split at hc <;> exact absurd hc (by simp)
    · intro hc
      exact absurd hc (by simp)


theorem parse_ok_cases {content : List Char} {fs : List (List Char)}
    (h : parse_control_file_content content = .ok fs) :
    ∃ sec, fieldSectionE content = .ok sec ∧
      ((extractFieldNames sec = [] ∧ fs = []) ∨
        (extractFieldNames sec ≠ [] ∧
          fs = extractFieldNames sec ++ [endSentinel])) := by
  rcases hfe : fieldSectionE content with e' | sec
  · simp [parse_control_file_content, hfe] at h
  · refine ⟨sec, rfl, ?_⟩
    simp only [parse_control_file_content, hfe] at h
    split at h
    · rename_i hlen
      right
      refine ⟨?_, by injection h with h'; exact h'.symm⟩
      intro hnil
      rw [hnil] at hlen
      simp at hlen
    · left
      have hnil : extractFieldNames sec = [] := by
        rename_i hlen
        simpa using List.length_eq_zero.mp (by omega)
      exact ⟨hnil, by injection h with h'; rw [← h', hnil]⟩

theorem parse_ok_last {content : List Char} {fs : List (List Char)}
    (h : parse_control_file_content content = .ok fs) (hne : fs ≠ []) :
    fs.getLast? = some endSentinel := by
  rcases parse_ok_cases h with ⟨sec, _, hcase | hcase⟩
  · exact absurd hcase.2 hne
  · rw [hcase.2, List.getLast?_append_of_ne_nil] <;> simp

/-- C3: the parser fails with a distinct, specifically identified error for
each of the three structural failure modes ('INTO TABLE' absent, no '('
after the anchor, end of text before the bracket depth returns to 0), its
errors are only ever one of those three, and an error is never accompanied
by a field list. -/
theorem parser_error_taxonomy_distinct (content : List Char) :
    (parse_control_file_content content = .error .MissingAnchor ↔
      findSub anchorChars content = none)
    ∧ (parse_control_file_content content = .error .MissingOpenParen ↔
      ∃ it, findSub anchorChars content = some it ∧
        findCharFrom '(' it content = none)
    ∧ (parse_control_file_content content = .error .UnbalancedParens ↔
      ∃ it op, findSub anchorChars content = some it ∧
        findCharFrom '(' it content = some op ∧
        scanClose 1 (content.drop (op + 1)) = none)
    ∧ (∀ e, parse_control_file_content content = .error e →
      (e = .MissingAnchor ∨ e = .MissingOpenParen ∨ e = .UnbalancedParens)
        ∧ ∀ fs, parse_control_file_content content ≠ .ok fs) := by
  have herr := parse_error_iff content
  refine ⟨?_, ?_, ?_, ?_⟩
  · rw [herr]
    constructor
    · intro h
      rcases h1 : findSub anchorChars content with _ | it
      · rfl
      · rcases h2 : findCharFrom '(' it content with _ | op
        · rw [fieldSectionE_missingOpen h1 h2] at h
          exact absurd h (by simp)
        · rcases h3 : scanClose 1 (content.drop (op + 1)) with _ | k
          · rw [fieldSectionE_unbalanced h1 h2 h3] at h
            exact absurd h (by simp)
          · rw [fieldSectionE_ok h1 h2 h3] at h
            exact absurd h (by simp)
    · intro h
      exact fieldSectionE_missingAnchor h
  · rw [herr]
    constructor
    · intro h
      rcases h1 : findSub anchorChars content with _ | it
      · rw [fieldSectionE_missingAnchor h1] at h
        exact absurd h (by simp)
      · refine ⟨it, rfl, ?_⟩
        rcases h2 : findCharFrom '(' it content with _ | op
        · rfl
        · rcases h3 : scanClose 1 (content.drop (op + 1)) with _ | k
          · rw [fieldSectionE_unbalanced h1 h2 h3] at h
            exact absurd h (by simp)
          · rw [fieldSectionE_ok h1 h2 h3] at h
            exact absurd h (by simp)
    · rintro ⟨it, h1, h2⟩
      exact fieldSectionE_missingOpen h1 h2
  · rw [herr]
    constructor
    · intro h
      rcases h1 : findSub anchorChars content with _ | it
      · rw [fieldSectionE_missingAnchor h1] at h
        exact absurd h (by simp)
      · refine ⟨it, ?_⟩
        rcases h2 : findCharFrom '(' it content with _ | op
        · rw [fieldSectionE_missingOpen h1 h2] at h
          exact absurd h (by simp)
        · refine ⟨op, rfl, rfl, ?_⟩
          rcases h3 : scanClose 1 (content.drop (op + 1)) with _ | k
          · rfl
          · rw [fieldSectionE_ok h1 h2 h3] at h
            exact absurd h (by simp)
    · rintro ⟨it, op, h1, h2, h3⟩
      exact fieldSectionE_unbalanced h1 h2 h3
  · intro e he
    refine ⟨by cases e <;> simp, ?_⟩
    intro fs hok
    rw [hok] at he
    exact absurd he (by simp)

/-- Witness for C3 at concrete inputs: a text with no 'INTO TABLE' anchor
is rejected as MissingAnchor. -/
theorem parser_error_taxonomy_distinct_witness :
    parse_control_file_content "LOAD DATA ONLY".data =
      .error .MissingAnchor :=
  (parser_error_taxonomy_distinct "LOAD DATA ONLY".data).1.mpr (by decide)

theorem scanClose_spec :
    ∀ (s : List Char) (d k : Nat), 1 ≤ d → scanClose d s = some k →
      k < s.length ∧ s.get? k = some ')' ∧
        (d : Int) + bal (s.take k) = 1 ∧
        ∀ j, j < k →
          ¬(s.get? j = some ')' ∧ (d : Int) + bal (s.take j) = 1) := by
  intro s
  induction s with
  | nil =>
    intro d k _ h
    simp [scanClose] at h
  | cons c rest ih =>
    intro d k hd h
    simp only [scanClose] at h
    by_cases hc : c = '('
    · rw [if_pos hc] at h
      rcases hsc : scanClose (d + 1) rest with _ | k'
      · rw [hsc] at h
        simp at h
      · rw [hsc] at h
        simp only [Option.map_some'] at h
        obtain rfl : k = k' + 1 := by injection h with h2; exact h2.symm
        obtain ⟨hlt, hget, hbal, hmin⟩ := ih (d + 1) k' (by omega) hsc
        refine ⟨by simpa using hlt, by simpa using hget, ?_, ?_⟩
        · have hb : bal ((c :: rest).take (k' + 1)) = 1 + bal (rest.take k') := by
            simp [List.take_succ_cons, bal, hc]
          rw [hb]
          push_cast at hbal ⊢
          omega
        · intro j hj hcontra
          cases j with
          | zero =>
            have : c = ')' := by simpa using hcontra.1
            simp [hc] at this
          | succ j' =>
            have hg : rest.get? j' = some ')' := by simpa using hcontra.1
            have hb : bal ((c :: rest).take (j' + 1)) =
                1 + bal (rest.take j') := by
              simp [List.take_succ_cons, bal, hc]
            rw [hb] at hcontra
            refine hmin j' (by omega) ⟨hg, ?_⟩
            push_cast at hcontra ⊢
            omega
    · by_cases hc2 : c = ')'
      · by_cases hd1 : d = 1
        · rw [if_neg hc, if_pos hc2, if_pos hd1] at h
          have hk : k = 0 := by
            injection h with h'
            exact h'.symm
          subst hk
          refine ⟨by simp, by simp [hc2], ?_, ?_⟩
          · simp [hd1, bal, List.take]
          · intro j hj
            omega
        · rw [if_neg hc, if_pos hc2, if_neg hd1] at h
          rcases hsc : scanClose (d - 1) rest with _ | k'
          · rw [hsc] at h
            simp at h
          · rw [hsc] at h
            simp only [Option.map_some'] at h
            obtain rfl : k = k' + 1 := by injection h with h2; exact h2.symm
            obtain ⟨hlt, hget, hbal, hmin⟩ := ih (d - 1) k' (by omega) hsc
            have hcast : ((d - 1 : Nat) : Int) = (d : Int) - 1 := by
              omega
            refine ⟨by simpa using hlt, by simpa using hget, ?_, ?_⟩
            · have hb : bal ((c :: rest).take (k' + 1)) =
                  -1 + bal (rest.take k') := by
                simp [List.take_succ_cons, bal, hc, hc2]
              rw [hb]
              rw [hcast] at hbal
              omega
            · intro j hj hcontra
              cases j with
              | zero =>
                have hbz : (d : Int) + bal ((c :: rest).take 0) = 1 :=
                  hcontra.2
                simp [bal, List.take] at hbz
                omega
              | succ j' =>
                have hg : rest.get? j' = some ')' := by simpa using hcontra.1
                have hb : bal ((c :: rest).take (j' + 1)) =
                    -1 + bal (rest.take j') := by
                  simp [List.take_succ_cons, bal, hc, hc2]
                rw [hb] at hcontra
                refine hmin j' (by omega) ⟨hg, ?_⟩
                rw [hcast]
                omega
      · rw [if_neg hc, if_neg hc2] at h
        rcases hsc : scanClose d rest with _ | k'
        · rw [hsc] at h
          simp at h
        · rw [hsc] at h
          simp only [Option.map_some'] at h
          obtain rfl : k = k' + 1 := by injection h with h2; exact h2.symm
          obtain ⟨hlt, hget, hbal, hmin⟩ := ih d k' hd hsc
          refine ⟨by simpa using hlt, by simpa using hget, ?_, ?_⟩
          · have hb : bal ((c :: rest).take (k' + 1)) = bal (rest.take k') := by
              simp [List.take_succ_cons, bal, hc, hc2]
            rw [hb]
            exact hbal
          · intro j hj hcontra
            cases j with
            | zero =>
              have : c = ')' := by simpa using hcontra.1
              exact hc2 this
            | succ j' =>
              have hg : rest.get? j' = some ')' := by simpa using hcontra.1
              have hb : bal ((c :: rest).take (j' + 1)) =
                  bal (rest.take j') := by
                simp [List.take_succ_cons, bal, hc, hc2]
              rw [hb] at hcontra
              exact hmin j' (by omega) ⟨hg, hcontra.2⟩

/-- C1: whenever the parser succeeds in extracting a field section, the
extracted section is the substring strictly between the first '(' after
'INTO TABLE' and the ')' at which the depth counter (starting at 1,
incremented at '(' and decremented at ')') first reaches 0: the closing
position holds ')', the section is parenthesis-balanced, and no earlier
position is a depth-balanced ')', so a nested '(...)' never terminates the
scan early. -/
theorem bracket_scan_selects_balanced_close
    (content sec : List Char) (h : fieldSectionE content = .ok sec) :
    ∃ it op k, findSub anchorChars content = some it ∧
      findCharFrom '(' it content = some op ∧
      scanClose 1 (content.drop (op + 1)) = some k ∧
      sec = (content.drop (op + 1)).take k ∧
      (content.drop (op + 1)).get? k = some ')' ∧
      bal sec = 0 ∧
      ∀ j, j < k → ¬((content.drop (op + 1)).get? j = some ')' ∧
        bal ((content.drop (op + 1)).take j) = 0) := by
  rcases h1 : findSub anchorChars content with _ | it
  · rw [fieldSectionE_missingAnchor h1] at h
    exact absurd h (by simp)
  · rcases h2 : findCharFrom '(' it content with _ | op
    · rw [fieldSectionE_missingOpen h1 h2] at h
      exact absurd h (by simp)
    · rcases h3 : scanClose 1 (content.drop (op + 1)) with _ | k
      · rw [fieldSectionE_unbalanced h1 h2 h3] at h
        exact absurd h (by simp)
      · rw [fieldSectionE_ok h1 h2 h3] at h
        have hsec : sec = (content.drop (op + 1)).take k := by
          injection h with h'
          exact h'.symm
        obtain ⟨_, hget, hbal, hmin⟩ :=
          scanClose_spec (content.drop (op + 1)) 1 k (by omega) h3
        refine ⟨it, op, k, rfl, h2, h3, hsec, hget, ?_, ?_⟩
        · rw [hsec]
          omega
        · intro j hj hcontra
          refine hmin j hj ⟨hcontra.1, ?_⟩
          omega

/-- Witness for C1 on a concrete control file whose field section contains
a nested parenthesis group. -/
theorem bracket_scan_selects_balanced_close_witness :
    ∃ it op k,
      findSub anchorChars "INTO TABLE T (A (3),\nB) X".data = some it ∧
      findCharFrom '(' it "INTO TABLE T (A (3),\nB) X".data = some op ∧
      scanClose 1 ("INTO TABLE T (A (3),\nB) X".data.drop (op + 1)) = some k ∧
      "A (3),\nB".data =
        ("INTO TABLE T (A (3),\nB) X".data.drop (op + 1)).take k ∧
      ("INTO TABLE T (A (3),\nB) X".data.drop (op + 1)).get? k = some ')' ∧
      bal "A (3),\nB".data = 0 ∧
      ∀ j, j < k →
        ¬(("INTO TABLE T (A (3),\nB) X".data.drop (op + 1)).get? j =
            some ')' ∧
          bal (("INTO TABLE T (A (3),\nB) X".data.drop (op + 1)).take j) = 0) :=
  bracket_scan_selects_balanced_close "INTO TABLE T (A (3),\nB) X".data
    "A (3),\nB".data rfl

/-- C2: for every successfully parsed control file, when at least one field
name is captured the returned list ends with the literal sentinel END and
has length one more than the captured names; when the field section holds
only skip-lines or lines matching no field-name token, the parser returns
the empty list with no sentinel. -/
theorem parse_sentinel_invariant (content sec : List Char)
    (fs : List (List Char)) (h1 : fieldSectionE content = .ok sec)
    (h2 : parse_control_file_content content = .ok fs) :
    (extractFieldNames sec = [] → fs = []) ∧
    (extractFieldNames sec ≠ [] →
      fs.getLast? = some endSentinel ∧
      fs.length = (extractFieldNames sec).length + 1) ∧
    ((∀ line ∈ splitOnNl sec,
        skipLine (upperChars line) = true ∨
        matchFieldName (stripChars (upperChars line)) = none) → fs = []) := by
  obtain ⟨sec', hsec', hcase⟩ := parse_ok_cases h2
  rw [h1] at hsec'
  obtain rfl : sec = sec' := by
    injection hsec' with h'
  have honly : (∀ line ∈ splitOnNl sec,
      skipLine (upperChars line) = true ∨
      matchFieldName (stripChars (upperChars line)) = none) →
      extractFieldNames sec = [] := by
    intro hl
    have haux : ∀ (lines : List (List Char)) (acc : List (List Char)),
        (∀ line ∈ lines,
          skipLine (upperChars line) = true ∨
          matchFieldName (stripChars (upperChars line)) = none) →
        lines.foldl
          (fun acc line =>
            let lu := upperChars line
            if skipLine lu then acc
            else
              match matchFieldName (stripChars lu) with
              | some name => acc ++ [name]
              | none => acc)
          acc = acc := by
      intro lines
      induction lines with
      | nil => intro acc _; rfl
      | cons l ls ihl =>
        intro acc hl2
        have hstep :
            (let lu := upperChars l;
             if skipLine lu then acc
             else
               match matchFieldName (stripChars lu) with
               | some name => acc ++ [name]
               | none => acc) = acc := by
          rcases hl2 l (by simp) with hskip | hnone
          · simp [hskip]
          · by_cases hs : skipLine (upperChars l)
            · simp [hs]
            · simp [hs, hnone]
        rw [List.foldl_cons, hstep]
        exact ihl acc (fun l' hl' => hl2 l' (by simp [hl']))
    exact haux (splitOnNl sec) [] hl
  rcases hcase with ⟨hnil, rfl⟩ | ⟨hne, rfl⟩
  · exact ⟨fun _ => rfl, fun hc => absurd hnil hc, fun _ => rfl⟩
  · refine ⟨fun hc => absurd hc hne, ?_, ?_⟩
    · intro _
      constructor
      · rw [List.getLast?_append_of_ne_nil] <;> simp
      · simp
    · intro hl
      exact absurd (honly hl) hne

/-- Witness for C2 on a concrete control file: one captured field, list
[SEGMENT1, END]. -/
theorem parse_sentinel_invariant_witness :
    (extractFieldNames "\nSEGMENT1,\nX CONSTANT 5\n".data = [] →
      (["SEGMENT1".data, "END".data] : List (List Char)) = []) ∧
    (extractFieldNames "\nSEGMENT1,\nX CONSTANT 5\n".data ≠ [] →
      (["SEGMENT1".data, "END".data] : List (List Char)).getLast? =
        some endSentinel ∧
      (["SEGMENT1".data, "END".data] : List (List Char)).length =
        (extractFieldNames "\nSEGMENT1,\nX CONSTANT 5\n".data).length + 1) ∧
    ((∀ line ∈ splitOnNl "\nSEGMENT1,\nX CONSTANT 5\n".data,
        skipLine (upperChars line) = true ∨
        matchFieldName (stripChars (upperChars line)) = none) →
      (["SEGMENT1".data, "END".data] : List (List Char)) = []) :=
  parse_sentinel_invariant "INTO TABLE T (\nSEGMENT1,\nX CONSTANT 5\n)".data
    "\nSEGMENT1,\nX CONSTANT 5\n".data ["SEGMENT1".data, "END".data]
    rfl rfl

theorem merge_structure :
    ∀ (additional fields : List (List Char)),
      ∃ extra, mergeAdditionalFields fields additional = fields ++ extra ∧
        (∀ g ∈ extra, g ∉ fields ∧ g ∈ additional) ∧
        ((∃ f ∈ additional, f ∉ fields) → extra ≠ []) := by
  intro additional
  induction additional with
  | nil =>
    intro fields
    exact ⟨[], by simp [mergeAdditionalFields], by simp, by simp⟩
  | cons f rest ih =>
    intro fields
    by_cases hf : f ∈ fields
    · obtain ⟨extra, heq, hmem, hne⟩ := ih fields
      refine ⟨extra, ?_, ?_, ?_⟩
      · rw [← heq]
        simp [mergeAdditionalFields, List.foldl_cons, hf]
      · intro g hg
        obtain ⟨h1, h2⟩ := hmem g hg
        exact ⟨h1, by simp [h2]⟩
      · rintro ⟨f', hf', hfn⟩
        rcases List.mem_cons.mp hf' with rfl | hf'2
        · exact absurd hf hfn
        · exact hne ⟨f', hf'2, hfn⟩
    · obtain ⟨extra, heq, hmem, _⟩ := ih (fields ++ [f])
      refine ⟨f :: extra, ?_, ?_, ?_⟩
      · have : mergeAdditionalFields fields (f :: rest) =
            mergeAdditionalFields (fields ++ [f]) rest := by
          simp [mergeAdditionalFields, List.foldl_cons, hf]
        rw [this, heq, List.append_assoc]
        rfl
      · intro g hg
        rcases List.mem_cons.mp hg with rfl | hg2
        · exact ⟨hf, by simp⟩
        · obtain ⟨h1, h2⟩ := hmem g hg2
          refine ⟨fun hc => h1 (by simp [hc]), by simp [h2]⟩
      · intro _
        simp

/-- C10: the metadata operation appends each catalog-supplied additional
field to the parsed field list only when not already present, but after
the parser's trailing END sentinel; hence whenever the parse yields a
non-empty list and at least one additional field is genuinely new, the
merged list no longer ends with END — its last element is one of the newly
appended additional fields. -/
theorem metadata_merge_breaks_sentinel (content : List Char)
    (fields additional : List (List Char))
    (h : parse_control_file_content content = .ok fields)
    (hne : fields ≠ []) (hnew : ∃ f ∈ additional, f ∉ fields) :
    (mergeAdditionalFields fields additional).getLast? ≠ some endSentinel ∧
    ∃ g, (mergeAdditionalFields fields additional).getLast? = some g ∧
      g ∈ additional ∧ g ∉ fields := by
  have hlast : fields.getLast? = some endSentinel := parse_ok_last h hne
  have hsent : endSentinel ∈ fields := List.mem_of_mem_getLast? hlast
  obtain ⟨extra, heq, hmem, hnn⟩ := merge_structure additional fields
  have hxne : extra ≠ [] := hnn hnew
  have hlast2 : (mergeAdditionalFields fields additional).getLast? =
      extra.getLast? := by
    rw [heq]
    exact List.getLast?_append_of_ne_nil _ hxne
  obtain ⟨g, hg⟩ : ∃ g, extra.getLast? = some g := by
    cases hx : extra.getLast? with
    | none => exact absurd (List.getLast?_eq_none_iff.mp hx) hxne
    | some g => exact ⟨g, rfl⟩
  have hgmem : g ∈ extra := List.mem_of_mem_getLast? hg
  obtain ⟨hgnf, hgadd⟩ := hmem g hgmem
  constructor
  · rw [hlast2, hg]
    intro hc
    injection hc with hc'
    exact hgnf (hc' ▸ hsent)
  · exact ⟨g, by rw [hlast2, hg], hgadd, hgnf⟩

/-- Witness for C10: merging a new additional field after parsing leaves
the list ending in the new field, not END. -/
theorem metadata_merge_breaks_sentinel_witness :
    (mergeAdditionalFields ["SEGMENT1".data, "END".data]
        ["ZX_EXTRA".data]).getLast? ≠ some endSentinel ∧
    ∃ g, (mergeAdditionalFields ["SEGMENT1".data, "END".data]
        ["ZX_EXTRA".data]).getLast? = some g ∧
      g ∈ (["ZX_EXTRA".data] : List (List Char)) ∧
      g ∉ (["SEGMENT1".data, "END".data] : List (List Char)) :=
  metadata_merge_breaks_sentinel
    "INTO TABLE T (\nSEGMENT1,\nX CONSTANT 5\n)".data
    ["SEGMENT1".data, "END".data] ["ZX_EXTRA".data]
    rfl (by decide) ⟨"ZX_EXTRA".data, by decide⟩

theorem lookupCol_mem {name : String} {cs : List (String × List Val)}
    {v : List Val} (h : lookupCol name cs = some v) : (name, v) ∈ cs := by
  induction cs with
  | nil => simp [lookupCol] at h
  | cons p rest ih =>
    obtain ⟨m, w⟩ := p
    by_cases hm : m = name
    · rw [lookupCol, if_pos hm] at h
      injection h with h'
      subst hm h'
      simp
    · rw [lookupCol, if_neg hm] at h
      simp [ih h]

theorem sourceLookup_length {src : SourceDF} {r : ColumnRule}
    {s : List Val} (hwf : SourceWF src) (h : sourceLookup src r = some s) :
    s.length = src.nrows := by
  unfold sourceLookup at h
  rcases hc : r.source_column with _ | sc
  · rw [hc] at h
    exact absurd h (by simp)
  · rw [hc] at h
    exact hwf _ (lookupCol_mem h)

theorem count_zero_range {idx : FrameIndex} (h : idx.count = 0) :
    idx = .range 0 := by
  cases idx with
  | range n =>
    simp only [FrameIndex.count] at h
    rw [h]
  | dictKeys => simp [FrameIndex.count] at h

theorem applyDefault_idx {orc : String → Except String (List (List Val))}
    {clk : DateTimeModel} {df : ODF} {t : String} {d : DefaultVal}
    (hrec : recognizedDefault d = true) :
    (applyDefault orc clk df t d).idx = df.idx := by
  cases d with
  | absent => rfl
  | scalar v =>
    cases v with
    | vstr s =>
      simp only [applyDefault]
      split <;> rfl
    | vint n => rfl
    | vnone => rfl
    | vdict a b => rfl
  | dict ty v =>
    simp only [applyDefault]
    by_cases h1 : strToLower ty = "sql"
    · rw [if_pos h1]
      rfl
    · rw [if_neg h1]
      by_cases h2 : strToLower ty = "sequence"
      · rw [if_pos h2]
        rfl
      · rw [if_neg h2]
        by_cases h3 : strToLower ty = "constant"
        · rw [if_pos h3]
          rfl
        · exfalso
          simp [recognizedDefault, h1, h2, h3] at hrec

theorem applyRule_idx_noSource {src : SourceDF}
    {orc : String → Except String (List (List Val))} {clk : DateTimeModel}
    {df : ODF} {r : ColumnRule} (h : sourceLookup src r = none)
    (hrec : recognizedDefault r.default = true) :
    (applyRule src orc clk df r).idx = df.idx := by
  simp only [applyRule, h]
  exact applyDefault_idx hrec

theorem applyRule_idx_source {src : SourceDF}
    {orc : String → Except String (List (List Val))} {clk : DateTimeModel}
    {df : ODF} {r : ColumnRule} {s : List Val} (hwf : SourceWF src)
    (h : sourceLookup src r = some s)
    (hp : df.idx = .range 0 ∨ df.idx = .range src.nrows) :
    (applyRule src orc clk df r).idx = .range src.nrows := by
  have hlen : s.length = src.nrows := sourceLookup_length hwf h
  simp only [applyRule, h]
  unfold assignSeries
  split
  · simp only
    rw [hlen]
  · rename_i hcond
    simp only
    rcases hp with hp0 | hps
    · have hn0 : df.nrows = 0 := by
        rw [ODF.nrows, hp0]
        rfl
      have hs0 : s.length = 0 := by
        by_contra hsl
        exact hcond ⟨hn0, hsl⟩
      rw [hp0, ← hlen, hs0]
    · exact hps

theorem applyRule_idx_preserve {src : SourceDF}
    {orc : String → Except String (List (List Val))} {clk : DateTimeModel}
    {df : ODF} (r : ColumnRule) (hwf : SourceWF src)
    (hrec : recognizedDefault r.default = true)
    (hdf : df.idx = .range src.nrows) :
    (applyRule src orc clk df r).idx = .range src.nrows := by
  rcases hsl : sourceLookup src r with _ | s
  · rw [applyRule_idx_noSource hsl hrec, hdf]
  · exact applyRule_idx_source hwf hsl (Or.inr hdf)

theorem process_sheet_from_idx_preserve {src : SourceDF}
    {orc : String → Except String (List (List Val))} {clk : DateTimeModel}
    (hwf : SourceWF src) :
    ∀ (rules : List ColumnRule) (df : ODF),
      (∀ r ∈ rules, recognizedDefault r.default = true) →
      df.idx = .range src.nrows →
      (process_sheet_from src orc clk df rules).idx = .range src.nrows := by
  intro rules
  induction rules with
  | nil => intro df _ hdf; exact hdf
  | cons r rest ih =>
    intro df hrec hdf
    rw [process_sheet_from, List.foldl_cons]
    exact ih _ (fun r' hr' => hrec r' (by simp [hr']))
      (applyRule_idx_preserve r hwf (hrec r (by simp)) hdf)

theorem process_sheet_from_idx_hits {src : SourceDF}
    {orc : String → Except String (List (List Val))} {clk : DateTimeModel}
    (hwf : SourceWF src) :
    ∀ (rules : List ColumnRule) (df : ODF),
      (∀ r ∈ rules, recognizedDefault r.default = true) →
      (df.idx = .range 0 ∨ df.idx = .range src.nrows) →
      (∃ r ∈ rules, (sourceLookup src r).isSome) →
      (process_sheet_from src orc clk df rules).idx = .range src.nrows := by
  intro rules
  induction rules with
  | nil =>
    intro df _ _ hex
    simp at hex
  | cons r rest ih =>
    intro df hrec hp hex
    rw [process_sheet_from, List.foldl_cons]
    rcases hsl : sourceLookup src r with _ | s
    · rcases hex with ⟨r', hr', hsome⟩
      rcases List.mem_cons.mp hr' with rfl | hr'2
      · rw [hsl] at hsome
        simp at hsome
      · refine ih _ (fun r'' hr'' => hrec r'' (by simp [hr''])) ?_
          ⟨r', hr'2, hsome⟩
        rw [applyRule_idx_noSource hsl (hrec r (by simp))]
        exact hp
    · have h1 : (applyRule src orc clk df r).idx = .range src.nrows :=
        applyRule_idx_source hwf hsl hp
      exact process_sheet_from_idx_preserve hwf rest _
        (fun r' hr' => hrec r' (by simp [hr'])) h1

theorem process_sheet_from_idx_allnone {src : SourceDF}
    {orc : String → Except String (List (List Val))} {clk : DateTimeModel} :
    ∀ (rules : List ColumnRule) (df : ODF),
      (∀ r ∈ rules, sourceLookup src r = none) →
      (∀ r ∈ rules, recognizedDefault r.default = true) →
      (process_sheet_from src orc clk df rules).idx = df.idx := by
  intro rules
  induction rules with
  | nil => intro df _ _; rfl
  | cons r rest ih =>
    intro df hall hrec
    rw [process_sheet_from, List.foldl_cons]
    have hrest := ih (applyRule src orc clk df r)
      (fun r' hr' => hall r' (by simp [hr']))
      (fun r' hr' => hrec r' (by simp [hr']))
    rw [process_sheet_from] at hrest
    rw [hrest]
    exact applyRule_idx_noSource (hall r (by simp)) (hrec r (by simp))

/-- C4 counterexample: a mapping group processed by the transform in which
every column comes from a default specification produces an output table
with 0 rows, not the source table's 2 rows — a scalar broadcast over the
fresh output frame's empty index stays empty. -/
theorem mapping_all_default_rowcount_counterexample :
    ¬((process_sheet ⟨[("id", [Val.vint 1, Val.vint 2])], 2⟩
        (fun _ => .error "no db") ⟨2024, 3, 5, 0, 0, 0⟩
        [⟨some "zzz", "STAMP", .dict "constant" "X"⟩]).nrows =
      (⟨[("id", [Val.vint 1, Val.vint 2])], 2⟩ : SourceDF).nrows) := by
  decide

/-- C4 amended: for a well-formed source table and a mapping group whose
structured defaults all carry recognized tags (sql, sequence or constant —
an unrecognized tag takes pandas' dict-alignment path, which can itself
establish a two-row dict-key index), the output row count equals the
source row count whenever at least one rule copies an existing source
column, and is zero when every rule falls to the default path. -/
theorem mapping_rowcount_amended (src : SourceDF)
    (orc : String → Except String (List (List Val))) (clk : DateTimeModel)
    (rules : List ColumnRule) (hwf : SourceWF src)
    (hrec : ∀ r ∈ rules, recognizedDefault r.default = true) :
    ((∃ r ∈ rules, (sourceLookup src r).isSome) →
      (process_sheet src orc clk rules).nrows = src.nrows) ∧
    ((∀ r ∈ rules, sourceLookup src r = none) →
      (process_sheet src orc clk rules).nrows = 0) := by
  constructor
  · intro hex
    show (process_sheet_from src orc clk ⟨.range 0, []⟩ rules).nrows =
      src.nrows
    rw [ODF.nrows,
      process_sheet_from_idx_hits hwf rules _ hrec (Or.inl rfl) hex]
    rfl
  · intro hall
    show (process_sheet_from src orc clk ⟨.range 0, []⟩ rules).nrows = 0
    rw [ODF.nrows, process_sheet_from_idx_allnone rules _ hall hrec]
    rfl

/-- Witness for C4's amended statement: with a rule copying source column
id, the output row count is the source's 2. -/
theorem mapping_rowcount_amended_witness :
    (process_sheet ⟨[("id", [Val.vint 1, Val.vint 2])], 2⟩
      (fun _ => .error "no db") ⟨2024, 3, 5, 0, 0, 0⟩
      [⟨some "id", "ID", .absent⟩,
       ⟨none, "STAMP", .dict "constant" "X"⟩]).nrows =
      (⟨[("id", [Val.vint 1, Val.vint 2])], 2⟩ : SourceDF).nrows :=
  (mapping_rowcount_amended ⟨[("id", [Val.vint 1, Val.vint 2])], 2⟩
    (fun _ => .error "no db") ⟨2024, 3, 5, 0, 0, 0⟩
    [⟨some "id", "ID", .absent⟩, ⟨none, "STAMP", .dict "constant" "X"⟩]
    (by
      intro p hp
      rw [List.mem_singleton] at hp
      subst hp
      rfl)
    (by decide)).1 (by decide)

theorem lookupCol_updateCols_self (cs : List (String × List Val))
    (name : String) (v : List Val) :
    lookupCol name (updateCols cs name v) = some v := by
  induction cs with
  | nil => simp [updateCols, lookupCol]
  | cons p rest ih =>
    obtain ⟨m, w⟩ := p
    by_cases hm : m = name
    · rw [updateCols, if_pos hm, lookupCol, if_pos rfl]
    · rw [updateCols, if_neg hm, lookupCol, if_neg hm]
      exact ih

theorem updateCols_updateCols (cs : List (String × List Val))
    (name : String) (v w : List Val) :
    updateCols (updateCols cs name v) name w = updateCols cs name w := by
  induction cs with
  | nil => simp [updateCols]
  | cons p rest ih =>
    obtain ⟨m, x⟩ := p
    by_cases hm : m = name
    · rw [updateCols, if_pos hm, updateCols, if_pos rfl, updateCols,
        if_pos hm]
    · rw [updateCols, if_neg hm, updateCols, if_neg hm, updateCols,
        if_neg hm, ih]

theorem reindexNone_updateCols (m : Nat) (cs : List (String × List Val))
    (name : String) (v : List Val) :
    reindexNone m (updateCols cs name v) =
      updateCols (reindexNone m cs) name (List.replicate m Val.vnone) := by
  induction cs with
  | nil => simp [updateCols, reindexNone]
  | cons p rest ih =>
    obtain ⟨k, x⟩ := p
    by_cases hk : k = name
    · rw [updateCols, if_pos hk]
      simp only [reindexNone, List.map_cons]
      rw [updateCols, if_pos hk]
    · rw [updateCols, if_neg hk]
      simp only [reindexNone, List.map_cons]
      rw [updateCols, if_neg hk]
      simp only [reindexNone] at ih
      rw [ih]

theorem lookupCol_applyRule (src : SourceDF)
    (orc : String → Except String (List (List Val))) (clk : DateTimeModel)
    (df : ODF) (r : ColumnRule) :
    lookupCol r.target_column (applyRule src orc clk df r).cols =
      some (resolvedColumn src orc clk df.idx r) := by
  rcases hsl : sourceLookup src r with _ | s
  · simp only [applyRule, hsl, resolvedColumn]
    cases hd : r.default with
    | absent =>
      simp only [applyDefault, defaultColumn, assignScalar, ODF.nrows]
      exact lookupCol_updateCols_self _ _ _
    | scalar v =>
      cases v with
      | vstr s2 =>
        simp only [applyDefault, defaultColumn]
        split <;>
          · simp only [assignScalar, ODF.nrows]
            exact lookupCol_updateCols_self _ _ _
      | vint n =>
        simp only [applyDefault, defaultColumn, assignScalar, ODF.nrows]
        exact lookupCol_updateCols_self _ _ _
      | vnone =>
        simp only [applyDefault, defaultColumn, assignScalar, ODF.nrows]
        exact lookupCol_updateCols_self _ _ _
      | vdict a b =>
        simp only [applyDefault, defaultColumn, assignScalar, ODF.nrows]
        exact lookupCol_updateCols_self _ _ _
    | dict ty v =>
      simp only [applyDefault, defaultColumn]
      by_cases h1 : strToLower ty = "sql"
      · rw [if_pos h1, if_pos h1]
        simp only [assignScalar, ODF.nrows]
        exact lookupCol_updateCols_self _ _ _
      · rw [if_neg h1, if_neg h1]
        by_cases h2 : strToLower ty = "sequence"
        · rw [if_pos h2, if_pos h2]
          simp only [assignScalar, ODF.nrows]
          exact lookupCol_updateCols_self _ _ _
        · rw [if_neg h2, if_neg h2]
          by_cases h3 : strToLower ty = "constant"
          · rw [if_pos h3, if_pos h3]
            simp only [assignScalar, ODF.nrows]
            exact lookupCol_updateCols_self _ _ _
          · rw [if_neg h3, if_neg h3]
            unfold assignDict
            by_cases hz : df.nrows = 0
            · rw [if_pos hz, if_pos (show df.idx.count = 0 from hz)]
              exact lookupCol_updateCols_self _ _ _
            · rw [if_neg hz, if_neg (show ¬df.idx.count = 0 from hz)]
              exact lookupCol_updateCols_self _ _ _
  · simp only [applyRule, hsl, resolvedColumn]
    unfold assignSeries
    by_cases hcond : df.nrows = 0 ∧ s.length ≠ 0
    · rw [if_pos hcond,
        if_pos (show df.idx.count = 0 ∧ s.length ≠ 0 from hcond)]
      exact lookupCol_updateCols_self _ _ _
    · rw [if_neg hcond,
        if_neg (show ¬(df.idx.count = 0 ∧ s.length ≠ 0) from hcond)]
      exact lookupCol_updateCols_self _ _ _

theorem applyRule_shape {src : SourceDF}
    {orc : String → Except String (List (List Val))} {clk : DateTimeModel}
    {df : ODF} {r : ColumnRule}
    (hnr : (applyRule src orc clk df r).idx = df.idx) :
    ∃ w, applyRule src orc clk df r =
      ⟨df.idx, updateCols df.cols r.target_column w⟩ := by
  rcases hsl : sourceLookup src r with _ | s
  · simp only [applyRule, hsl] at hnr ⊢
    cases hd : r.default with
    | absent => exact ⟨_, rfl⟩
    | scalar v =>
      cases v with
      | vstr s2 =>
        simp only [applyDefault]
        split
        · exact ⟨_, rfl⟩
        · exact ⟨_, rfl⟩
      | vint n => exact ⟨_, rfl⟩
      | vnone => exact ⟨_, rfl⟩
      | vdict a b => exact ⟨_, rfl⟩
    | dict ty v =>
      rw [hd] at hnr
      simp only [applyDefault] at hnr ⊢
      by_cases h1 : strToLower ty = "sql"
      · rw [if_pos h1]
        exact ⟨_, rfl⟩
      · rw [if_neg h1] at hnr ⊢
        by_cases h2 : strToLower ty = "sequence"
        · rw [if_pos h2]
          exact ⟨_, rfl⟩
        · rw [if_neg h2] at hnr ⊢
          by_cases h3 : strToLower ty = "constant"
          · rw [if_pos h3]
            exact ⟨_, rfl⟩
          · rw [if_neg h3] at hnr ⊢
            unfold assignDict at hnr ⊢
            by_cases hz : df.nrows = 0
            · exfalso
              rw [if_pos hz] at hnr
              simp only at hnr
              have h0 := count_zero_range (show df.idx.count = 0 from hz)
              rw [← hnr] at h0
              exact FrameIndex.noConfusion h0
            · rw [if_neg hz]
              exact ⟨_, rfl⟩
  · simp only [applyRule, hsl] at hnr ⊢
    unfold assignSeries at hnr ⊢
    by_cases hcond : df.nrows = 0 ∧ s.length ≠ 0
    · exfalso
      rw [if_pos hcond] at hnr
      simp only at hnr
      have h0 := count_zero_range (show df.idx.count = 0 from hcond.1)
      rw [← hnr] at h0
      injection h0 with h0e
      exact hcond.2 h0e
    · rw [if_neg hcond]
      exact ⟨_, rfl⟩

/-- C5: when two rules of a mapping group target the same output column,
the value present for that column after both rules ran is exactly the one
the later rule resolves at that state (copied and aligned from its source
column, a broadcast recognized default, or the dict-alignment result of an
unrecognized structured default), and when the earlier rule did not change
the frame's index the earlier rule leaves no trace at all: running both
rules equals running only the later one. -/
theorem mapping_last_write_wins (src : SourceDF)
    (orc : String → Except String (List (List Val))) (clk : DateTimeModel)
    (df : ODF) (r1 r2 : ColumnRule)
    (ht : r1.target_column = r2.target_column) :
    lookupCol r2.target_column
        (applyRule src orc clk (applyRule src orc clk df r1) r2).cols =
      some (resolvedColumn src orc clk
        (applyRule src orc clk df r1).idx r2) ∧
    ((applyRule src orc clk df r1).idx = df.idx →
      applyRule src orc clk (applyRule src orc clk df r1) r2 =
        applyRule src orc clk df r2) := by
  constructor
  · exact lookupCol_applyRule src orc clk _ r2
  · intro hnr
    obtain ⟨w1, hshape⟩ := applyRule_shape hnr
    rw [hshape, ht]
    rcases hsl2 : sourceLookup src r2 with _ | s2
    · simp only [applyRule, hsl2]
      cases hd : r2.default with
      | absent =>
        simp only [applyDefault, assignScalar, ODF.nrows]
        rw [updateCols_updateCols]
      | scalar v =>
        cases v with
        | vstr s3 =>
          simp only [applyDefault]
          by_cases hs : strToUpper s3 = "SEQUENCE"
          · rw [if_pos hs, if_pos hs]
            simp only [assignScalar, ODF.nrows]
            rw [updateCols_updateCols]
          · rw [if_neg hs, if_neg hs]
            simp only [assignScalar, ODF.nrows]
            rw [updateCols_updateCols]
        | vint n =>
          simp only [applyDefault, assignScalar, ODF.nrows]
          rw [updateCols_updateCols]
        | vnone =>
          simp only [applyDefault, assignScalar, ODF.nrows]
          rw [updateCols_updateCols]
        | vdict a b =>
          simp only [applyDefault, assignScalar, ODF.nrows]
          rw [updateCols_updateCols]
      | dict ty v =>
        simp only [applyDefault]
        by_cases h1 : strToLower ty = "sql"
        · rw [if_pos h1, if_pos h1]
          simp only [assignScalar, ODF.nrows]
          rw [updateCols_updateCols]
        · rw [if_neg h1, if_neg h1]
          by_cases h2 : strToLower ty = "sequence"
          · rw [if_pos h2, if_pos h2]
            simp only [assignScalar, ODF.nrows]
            rw [updateCols_updateCols]
          · rw [if_neg h2, if_neg h2]
            by_cases h3 : strToLower ty = "constant"
            · rw [if_pos h3, if_pos h3]
              simp only [assignScalar, ODF.nrows]
              rw [updateCols_updateCols]
            · rw [if_neg h3, if_neg h3]
              unfold assignDict
              simp only [ODF.nrows]
              by_cases hz : df.idx.count = 0
              · rw [if_pos hz, if_pos hz]
                rw [reindexNone_updateCols, updateCols_updateCols]
              · rw [if_neg hz, if_neg hz]
                rw [updateCols_updateCols]
    · simp only [applyRule, hsl2]
      unfold assignSeries
      simp only [ODF.nrows]
      by_cases hcond : df.idx.count = 0 ∧ s2.length ≠ 0
      · rw [if_pos hcond, if_pos hcond]
        rw [reindexNone_updateCols, updateCols_updateCols]
      · rw [if_neg hcond, if_neg hcond]
        rw [updateCols_updateCols]

/-- Witness for C5: rule 1 copies source column id into T, rule 2 then
overwrites T with the constant default; both the lookup form and the
full-overwrite form hold at this concrete input. -/
theorem mapping_last_write_wins_witness :
    lookupCol "T"
        (applyRule ⟨[("id", [Val.vint 1, Val.vint 2])], 2⟩
          (fun _ => Except.error "no db") ⟨2024, 3, 5, 0, 0, 0⟩
          (applyRule ⟨[("id", [Val.vint 1, Val.vint 2])], 2⟩
            (fun _ => Except.error "no db") ⟨2024, 3, 5, 0, 0, 0⟩
            ⟨.range 2, [("K", [Val.vnone, Val.vnone])]⟩
            ⟨some "id", "T", .absent⟩)
          ⟨none, "T", .dict "constant" "X"⟩).cols =
      some (resolvedColumn ⟨[("id", [Val.vint 1, Val.vint 2])], 2⟩
        (fun _ => Except.error "no db") ⟨2024, 3, 5, 0, 0, 0⟩
        (applyRule ⟨[("id", [Val.vint 1, Val.vint 2])], 2⟩
          (fun _ => Except.error "no db") ⟨2024, 3, 5, 0, 0, 0⟩
          ⟨.range 2, [("K", [Val.vnone, Val.vnone])]⟩
          ⟨some "id", "T", .absent⟩).idx
        ⟨none, "T", .dict "constant" "X"⟩) ∧
    ((applyRule ⟨[("id", [Val.vint 1, Val.vint 2])], 2⟩
        (fun _ => Except.error "no db") ⟨2024, 3, 5, 0, 0, 0⟩
        ⟨.range 2, [("K", [Val.vnone, Val.vnone])]⟩
        ⟨some "id", "T", .absent⟩).idx =
      (⟨.range 2, [("K", [Val.vnone, Val.vnone])]⟩ : ODF).idx →
      applyRule ⟨[("id", [Val.vint 1, Val.vint 2])], 2⟩
          (fun _ => Except.error "no db") ⟨2024, 3, 5, 0, 0, 0⟩
          (applyRule ⟨[("id", [Val.vint 1, Val.vint 2])], 2⟩
            (fun _ => Except.error "no db") ⟨2024, 3, 5, 0, 0, 0⟩
            ⟨.range 2, [("K", [Val.vnone, Val.vnone])]⟩
            ⟨some "id", "T", .absent⟩)
          ⟨none, "T", .dict "constant" "X"⟩ =
        applyRule ⟨[("id", [Val.vint 1, Val.vint 2])], 2⟩
          (fun _ => Except.error "no db") ⟨2024, 3, 5, 0, 0, 0⟩
          ⟨.range 2, [("K", [Val.vnone, Val.vnone])]⟩
          ⟨none, "T", .dict "constant" "X"⟩) :=
  mapping_last_write_wins ⟨[("id", [Val.vint 1, Val.vint 2])], 2⟩
    (fun _ => Except.error "no db") ⟨2024, 3, 5, 0, 0, 0⟩
    ⟨.range 2, [("K", [Val.vnone, Val.vnone])]⟩
    ⟨some "id", "T", .absent⟩ ⟨none, "T", .dict "constant" "X"⟩ rfl

/-- C6: the end-to-end scenario — source table {id:[1,2], name:[a,b]} and
mapping group G1 with a verbatim copy of id into ID and a constant default
X into STAMP — produces exactly one output group G1 equal to
{ID:[1,2], STAMP:[X,X]}. -/
theorem mapping_end_to_end_scenario :
    process_mapping_and_generate_csvs
        ⟨[("id", [Val.vint 1, Val.vint 2]),
          ("name", [Val.vstr "a", Val.vstr "b"])], 2⟩
        (fun _ => Except.error "no db") ⟨2024, 3, 5, 0, 0, 0⟩
        [("G1", [⟨some "id", "ID", .absent⟩,
                 ⟨none, "STAMP", .dict "constant" "X"⟩])] =
      [("G1", ⟨.range 2, [("ID", [Val.vint 1, Val.vint 2]),
                   ("STAMP", [Val.vstr "X", Val.vstr "X"])]⟩)] := by
  decide

/-- C8 counterexample: the raw structured default is not passed through
unchanged as the column's value — on a two-row frame the unrecognized-tag
dict's Series (keyed type/value) aligns against the RangeIndex to an
all-None column, not to the raw dict broadcast per row. -/
theorem unknown_default_tag_counterexample :
    lookupCol "B" (applyRule ⟨[("id", [Val.vint 1, Val.vint 2])], 2⟩
        (fun _ => Except.error "no db") ⟨2024, 3, 5, 0, 0, 0⟩
        ⟨.range 2, [("A", [Val.vint 7, Val.vint 8])]⟩
        ⟨none, "B", .dict "lookup" "42"⟩).cols =
      some [Val.vnone, Val.vnone] ∧
    ¬(lookupCol "B" (applyRule ⟨[("id", [Val.vint 1, Val.vint 2])], 2⟩
        (fun _ => Except.error "no db") ⟨2024, 3, 5, 0, 0, 0⟩
        ⟨.range 2, [("A", [Val.vint 7, Val.vint 8])]⟩
        ⟨none, "B", .dict "lookup" "42"⟩).cols =
      some (List.replicate 2 (Val.vdict "lookup" "42"))) := by
  decide

/-- C8 amended: a rule whose structured default carries a type tag other
than sql, sequence or constant still does not fail resolution — the raw
dict takes pandas' dict-like assignment path: aligned against an
established row index the column becomes all None; assigned to the
still-empty output frame, the frame adopts the dict's two keys as its
index and the column holds the dict's two values; and the remaining rules
of the group continue to be processed from that state. -/
theorem unknown_default_tag_amended (src : SourceDF)
    (orc : String → Except String (List (List Val))) (clk : DateTimeModel)
    (df : ODF) (r : ColumnRule) (rest : List ColumnRule) (ty v : String)
    (hsl : sourceLookup src r = none) (hdef : r.default = .dict ty v)
    (h1 : strToLower ty ≠ "sql") (h2 : strToLower ty ≠ "sequence")
    (h3 : strToLower ty ≠ "constant") :
    applyRule src orc clk df r = assignDict df r.target_column ty v ∧
    (∀ m, df.idx = .range m → m ≠ 0 →
      lookupCol r.target_column (applyRule src orc clk df r).cols =
        some (List.replicate m Val.vnone)) ∧
    (df.idx = .range 0 →
      applyRule src orc clk df r =
        ⟨.dictKeys, updateCols (reindexNone 2 df.cols) r.target_column
          [Val.vstr ty, Val.vstr v]⟩) ∧
    process_sheet_from src orc clk df (r :: rest) =
      process_sheet_from src orc clk
        (assignDict df r.target_column ty v) rest := by
  have happ : applyRule src orc clk df r =
      assignDict df r.target_column ty v := by
    simp only [applyRule, hsl, hdef, applyDefault]
    rw [if_neg h1, if_neg h2, if_neg h3]
  refine ⟨happ, ?_, ?_, ?_⟩
  · intro m hm hm0
    rw [happ]
    unfold assignDict
    rw [if_neg (show ¬df.nrows = 0 by
      rw [ODF.nrows, hm]
      simpa using hm0)]
    simp only
    rw [hm]
    rw [show alignDict (.range m) ty v = List.replicate m Val.vnone from rfl]
    exact lookupCol_updateCols_self _ _ _
  · intro hm0
    rw [happ]
    unfold assignDict
    rw [if_pos (show df.nrows = 0 by
      rw [ODF.nrows, hm0]
      rfl)]
  · rw [process_sheet_from, List.foldl_cons, happ]
    rfl

/-- Witness for C8's amended statement at a concrete unrecognized tag. -/
theorem unknown_default_tag_amended_witness :
    applyRule ⟨[("id", [Val.vint 1, Val.vint 2])], 2⟩
        (fun _ => Except.error "no db") ⟨2024, 3, 5, 0, 0, 0⟩
        ⟨.range 2, [("A", [Val.vint 7, Val.vint 8])]⟩
        ⟨none, "B", .dict "lookup" "42"⟩ =
      assignDict ⟨.range 2, [("A", [Val.vint 7, Val.vint 8])]⟩ "B"
        "lookup" "42" ∧
    (∀ m, (⟨.range 2, [("A", [Val.vint 7, Val.vint 8])]⟩ : ODF).idx =
        .range m → m ≠ 0 →
      lookupCol "B" (applyRule ⟨[("id", [Val.vint 1, Val.vint 2])], 2⟩
          (fun _ => Except.error "no db") ⟨2024, 3, 5, 0, 0, 0⟩
          ⟨.range 2, [("A", [Val.vint 7, Val.vint 8])]⟩
          ⟨none, "B", .dict "lookup" "42"⟩).cols =
        some (List.replicate m Val.vnone)) ∧
    ((⟨.range 2, [("A", [Val.vint 7, Val.vint 8])]⟩ : ODF).idx =
        .range 0 →
      applyRule ⟨[("id", [Val.vint 1, Val.vint 2])], 2⟩
          (fun _ => Except.error "no db") ⟨2024, 3, 5, 0, 0, 0⟩
          ⟨.range 2, [("A", [Val.vint 7, Val.vint 8])]⟩
          ⟨none, "B", .dict "lookup" "42"⟩ =
        ⟨.dictKeys, updateCols
          (reindexNone 2 [("A", [Val.vint 7, Val.vint 8])]) "B"
          [Val.vstr "lookup", Val.vstr "42"]⟩) ∧
    process_sheet_from ⟨[("id", [Val.vint 1, Val.vint 2])], 2⟩
        (fun _ => Except.error "no db") ⟨2024, 3, 5, 0, 0, 0⟩
        ⟨.range 2, [("A", [Val.vint 7, Val.vint 8])]⟩
        (⟨none, "B", .dict "lookup" "42"⟩ ::
          [⟨none, "C", .dict "constant" "X"⟩]) =
      process_sheet_from ⟨[("id", [Val.vint 1, Val.vint 2])], 2⟩
        (fun _ => Except.error "no db") ⟨2024, 3, 5, 0, 0, 0⟩
        (assignDict ⟨.range 2, [("A", [Val.vint 7, Val.vint 8])]⟩ "B"
          "lookup" "42")
        [⟨none, "C", .dict "constant" "X"⟩] :=
  unknown_default_tag_amended ⟨[("id", [Val.vint 1, Val.vint 2])], 2⟩
    (fun _ => Except.error "no db") ⟨2024, 3, 5, 0, 0, 0⟩
    ⟨.range 2, [("A", [Val.vint 7, Val.vint 8])]⟩
    ⟨none, "B", .dict "lookup" "42"⟩ [⟨none, "C", .dict "constant" "X"⟩]
    "lookup" "42" rfl rfl (by decide) (by decide) (by decide)

/-- C9: a scalar-query failure while resolving one rule's sql default is
absorbed — db.py returns an empty frame, the column degrades to the empty
None value and processing continues with the remaining rules; an empty
query result degrades identically; and every other mapping group of the
request still produces its output entry. -/
theorem sql_failure_isolated (src : SourceDF)
    (orc : String → Except String (List (List Val))) (clk : DateTimeModel)
    (df : ODF) (q e t : String) (hq : orc q = .error e) :
    applyRule src orc clk df ⟨none, t, .dict "sql" q⟩ =
      assignScalar df t Val.vnone ∧
    (∀ rest, process_sheet_from src orc clk df
        (⟨none, t, .dict "sql" q⟩ :: rest) =
      process_sheet_from src orc clk (assignScalar df t Val.vnone) rest) ∧
    (∀ (q₂ t₂ : String) (df₂ : ODF), orc q₂ = .ok [] →
      applyRule src orc clk df₂ ⟨none, t₂, .dict "sql" q₂⟩ =
        assignScalar df₂ t₂ Val.vnone) ∧
    (∀ sheets : List (String × List ColumnRule),
      (process_mapping_and_generate_csvs src orc clk sheets).map Prod.fst =
        (sheets.filter (fun sh => sheetColumnsOk sh.2)).map Prod.fst) := by
  have hone : ∀ (q' t' : String) (df' : ODF),
      execute_sql_query (orc q') = [] →
      applyRule src orc clk df' ⟨none, t', .dict "sql" q'⟩ =
        assignScalar df' t' Val.vnone := by
    intro q' t' df' hempty
    simp only [applyRule, sourceLookup, applyDefault]
    rw [if_pos (show strToLower "sql" = "sql" from rfl)]
    unfold sqlScalar
    rw [hempty]
  have hfail : applyRule src orc clk df ⟨none, t, .dict "sql" q⟩ =
      assignScalar df t Val.vnone :=
    hone q t df (by rw [hq]; rfl)
  refine ⟨hfail, ?_, ?_, ?_⟩
  · intro rest
    rw [process_sheet_from, List.foldl_cons, hfail]
    rfl
  · intro q₂ t₂ df₂ hq₂
    exact hone q₂ t₂ df₂ (by rw [hq₂]; rfl)
  · intro sheets
    induction sheets with
    | nil => rfl
    | cons sh rest ih =>
      obtain ⟨name, rules⟩ := sh
      by_cases hok : sheetColumnsOk rules
      · rw [process_mapping_and_generate_csvs, if_pos hok]
        simp only [List.map_cons, List.filter_cons, hok, ih]
        rfl
      · rw [process_mapping_and_generate_csvs, if_neg hok]
        simp only [List.filter_cons]
        rw [if_neg (by simpa using hok)]
        exact ih

/-- Witness for C9: with an oracle failing on query q1 and returning an
empty frame on q2, both columns degrade to None while a second group keeps
its entry. -/
theorem sql_failure_isolated_witness :
    applyRule ⟨[("id", [Val.vint 1, Val.vint 2])], 2⟩
        (fun q => if q = "q2" then Except.ok [] else Except.error "down")
        ⟨2024, 3, 5, 0, 0, 0⟩ ⟨.range 2, [("A", [Val.vint 7, Val.vint 8])]⟩
        ⟨none, "B", .dict "sql" "q1"⟩ =
      assignScalar ⟨.range 2, [("A", [Val.vint 7, Val.vint 8])]⟩ "B" Val.vnone ∧
    (∀ rest, process_sheet_from ⟨[("id", [Val.vint 1, Val.vint 2])], 2⟩
        (fun q => if q = "q2" then Except.ok [] else Except.error "down")
        ⟨2024, 3, 5, 0, 0, 0⟩ ⟨.range 2, [("A", [Val.vint 7, Val.vint 8])]⟩
        (⟨none, "B", .dict "sql" "q1"⟩ :: rest) =
      process_sheet_from ⟨[("id", [Val.vint 1, Val.vint 2])], 2⟩
        (fun q => if q = "q2" then Except.ok [] else Except.error "down")
        ⟨2024, 3, 5, 0, 0, 0⟩
        (assignScalar ⟨.range 2, [("A", [Val.vint 7, Val.vint 8])]⟩ "B" Val.vnone)
        rest) ∧
    (∀ (q₂ t₂ : String) (df₂ : ODF),
      (fun q => if q = "q2" then Except.ok [] else Except.error "down") q₂ =
        Except.ok ([] : List (List Val)) →
      applyRule ⟨[("id", [Val.vint 1, Val.vint 2])], 2⟩
          (fun q => if q = "q2" then Except.ok [] else Except.error "down")
          ⟨2024, 3, 5, 0, 0, 0⟩ df₂ ⟨none, t₂, .dict "sql" q₂⟩ =
        assignScalar df₂ t₂ Val.vnone) ∧
    (∀ sheets : List (String × List ColumnRule),
      (process_mapping_and_generate_csvs
          ⟨[("id", [Val.vint 1, Val.vint 2])], 2⟩
          (fun q => if q = "q2" then Except.ok [] else Except.error "down")
          ⟨2024, 3, 5, 0, 0, 0⟩ sheets).map Prod.fst =
        (sheets.filter (fun sh => sheetColumnsOk sh.2)).map Prod.fst) :=
  sql_failure_isolated ⟨[("id", [Val.vint 1, Val.vint 2])], 2⟩
    (fun q => if q = "q2" then Except.ok [] else Except.error "down")
    ⟨2024, 3, 5, 0, 0, 0⟩ ⟨.range 2, [("A", [Val.vint 7, Val.vint 8])]⟩
    "q1" "down" "B" rfl

theorem replaceAllF_no_occ (pat rep : List Char) :
    ∀ (fuel : Nat) (s : List Char), containsSub pat s = false →
      replaceAllF fuel s pat rep = s := by
  intro fuel
  induction fuel with
  | zero => intro s _; rfl
  | succ fuel ih =>
    intro s hno
    cases s with
    | nil => rfl
    | cons c rest =>
      by_cases hp : pat.isPrefixOf (c :: rest)
      · exfalso
        rw [containsSub, findSub, if_pos hp] at hno
        simp at hno
      · have hrest : containsSub pat rest = false := by
          rw [containsSub, findSub, if_neg hp] at hno
          rcases hfs : findSub pat rest with _ | i
          · simp [containsSub, hfs]
          · rw [hfs] at hno
            simp at hno
        rw [replaceAllF, if_neg (by
          rintro ⟨-, hpre⟩
          exact hp hpre)]
        rw [ih rest hrest]

theorem replaceAll_no_occ {pat s : List Char} (rep : List Char)
    (h : containsSub pat s = false) : replaceAll s pat rep = s :=
  replaceAllF_no_occ pat rep s.length s h

theorem generate_sequence_unfold (y mo d h mi s : Nat) (p : List Char) :
    generate_sequence ⟨y, mo, d, h, mi, s⟩ p =
      replaceAll (replaceAll (replaceAll (replaceAll (replaceAll
        (replaceAll p "YYYY".data (natToDigits y)) "MM".data (pad2 mo))
        "DD".data (pad2 d)) "HH".data (pad2 h)) "MI".data (pad2 mi))
        "SS".data (pad2 s) := rfl

/-- C7: sequence default resolution is a pure function of the pattern and
the supplied clock reading: for the pattern YYYYMMDD and a clock reading of
2024-03-05 the result is exactly 20240305 (independent of the time-of-day
components), and a pattern containing none of the six tokens passes
through entirely unchanged. -/
theorem sequence_resolution_deterministic :
    (∀ h mi s : Nat,
      generate_sequence ⟨2024, 3, 5, h, mi, s⟩ "YYYYMMDD".data =
        "20240305".data) ∧
    (∀ (clk : DateTimeModel) (pat : List Char),
      (∀ t ∈ (format_map clk).map Prod.fst, containsSub t pat = false) →
      generate_sequence clk pat = pat) := by
  constructor
  · intro h mi s
    rw [generate_sequence_unfold]
    have e1 : replaceAll "YYYYMMDD".data "YYYY".data (natToDigits 2024) =
        "2024MMDD".data := by decide
    have e2 : replaceAll "2024MMDD".data "MM".data (pad2 3) =
        "202403DD".data := by decide
    have e3 : replaceAll "202403DD".data "DD".data (pad2 5) =
        "20240305".data := by decide
    rw [e1, e2, e3]
    have e4 : replaceAll "20240305".data "HH".data (pad2 h) =
        "20240305".data := replaceAll_no_occ _ (by decide)
    rw [e4]
    have e5 : replaceAll "20240305".data "MI".data (pad2 mi) =
        "20240305".data := replaceAll_no_occ _ (by decide)
    rw [e5]
    exact replaceAll_no_occ _ (by decide)
  · intro clk pat hall
    obtain ⟨y, mo, d, h, mi, s⟩ := clk
    rw [generate_sequence_unfold]
    have t1 : replaceAll pat "YYYY".data (natToDigits y) = pat :=
      replaceAll_no_occ _ (hall _ (by simp [format_map]))
    have t2 : replaceAll pat "MM".data (pad2 mo) = pat :=
      replaceAll_no_occ _ (hall _ (by simp [format_map]))
    have t3 : replaceAll pat "DD".data (pad2 d) = pat :=
      replaceAll_no_occ _ (hall _ (by simp [format_map]))
    have t4 : replaceAll pat "HH".data (pad2 h) = pat :=
      replaceAll_no_occ _ (hall _ (by simp [format_map]))
    have t5 : replaceAll pat "MI".data (pad2 mi) = pat :=
      replaceAll_no_occ _ (hall _ (by simp [format_map]))
    have t6 : replaceAll pat "SS".data (pad2 s) = pat :=
      replaceAll_no_occ _ (hall _ (by simp [format_map]))
    rw [t1, t2, t3, t4, t5, t6]

/-- Witness for C7: a pattern with no clock tokens passes through
unchanged at a concrete clock reading. -/
theorem sequence_resolution_deterministic_witness :
    generate_sequence ⟨2024, 3, 5, 0, 0, 0⟩ "AB-C".data = "AB-C".data :=
  sequence_resolution_deterministic.2 ⟨2024, 3, 5, 0, 0, 0⟩ "AB-C".data
    (by decide)
